import Mathlib

/-!
Shallow embedding of the `smac_planner` core (files
`src/smac_planner/include/smac_planner/node_2d.hpp` and
`src/smac_planner/include/smac_planner/smoother_cost_function.hpp`)
together with theorems settling the specification claims about it.

Modelling conventions:
* C++ `double` values are modelled as rationals (`ℚ`); the transcendental
  primitives (`sqrt`, `acos`, `cos`) and the floating-point classification
  predicates (`isnan`, `isinf`) are abstracted as an oracle structure
  `RealOps`, so every theorem quantifies over arbitrary implementations of
  those primitives and only depends on the control / data flow of the code.
* C++ `unsigned int` arithmetic is modelled exactly, as natural numbers with
  wraparound modulo `2^32` (`add32` / `sub32`).
* `float` fields are modelled by `FloatV`, which distinguishes finite values
  from the IEEE-754 infinities and NaN; `std::numeric_limits<float>::max()`
  is the (finite) rational `(2^24 - 1) * 2^104 = (2 - 2^-23) * 2^127`.
* Arrays written through raw pointers (`gradient`) are modelled as total
  functions `ℕ → ℚ` updated pointwise; the `gradient != NULL` test of the
  source is modelled by the boolean `grad_nonnull`.
-/

set_option maxRecDepth 4096

namespace SmacPlanner

/-- Modelled from the spec: `constants.hpp` is not under `src/`.  Spec §3
requires five reserved 8-bit cost codes with `FREE` below the ordinary
traversal band `[FREE+1, MAX_NON_OBSTACLE]` and every 8-bit value outside
that band reserved; the ROS `costmap_2d` convention fixes them as below. -/
def FREE : ℕ := 0

/-- Modelled from the spec: highest traversable cost value (spec §3). -/
def MAX_NON_OBSTACLE : ℕ := 252

/-- Modelled from the spec: inscribed-obstacle cost code (spec §3). -/
def INSCRIBED : ℕ := 253

/-- Modelled from the spec: lethal-obstacle cost code (spec §3). -/
def OCCUPIED : ℕ := 254

/-- Modelled from the spec: unknown-cell cost code (spec §3). -/
def UNKNOWN : ℕ := 255

/-- A C++ `float` value: either a finite value (as an exact rational) or one
of the IEEE-754 non-finite values. -/
inductive FloatV where
  | finite (q : ℚ)
  | posInf
  | negInf
  | nan
deriving DecidableEq, Repr

/-- `std::numeric_limits<float>::max() = (2 - 2^-23) * 2^127`, exactly. -/
def floatMax : ℚ := (2 ^ 24 - 1) * 2 ^ 104

/-- `smac_planner::Node2D` (node_2d.hpp lines 33-303).  The `parent` raw
pointer is modelled as an optional node index. -/
structure Node2D where
  parent : Option ℕ
  _cell_cost : FloatV
  _accumulated_cost : FloatV
  _index : ℕ
  _was_visited : Bool
  _is_queued : Bool
deriving DecidableEq, Repr

/-- The `Node2D` constructor (node_2d.hpp lines 59-67): parent null, cell
cost cast from the 8-bit costmap value, accumulated cost
`std::numeric_limits<float>::max()`, flags cleared. -/
def Node2D.init (cost_in : ℕ) (index : ℕ) : Node2D :=
  { parent := none
    _cell_cost := FloatV.finite cost_in
    _accumulated_cost := FloatV.finite floatMax
    _index := index
    _was_visited := false
    _is_queued := false }

/-- `Node2D::reset` (node_2d.hpp lines 92-100). -/
def Node2D.reset (_n : Node2D) (cost : ℕ) (index : ℕ) : Node2D :=
  { parent := none
    _cell_cost := FloatV.finite cost
    _accumulated_cost := FloatV.finite floatMax
    _index := index
    _was_visited := false
    _is_queued := false }

/-- `Node2D::isNodeValid` (node_2d.hpp lines 178-199).  The `float` cell
cost is the exact image of an 8-bit costmap value, so the comparisons are
exact and the function is modelled on the 8-bit value directly. -/
def isNodeValid (cost : ℕ) (traverse_unknown : Bool) : Bool :=
  if cost = OCCUPIED ∨ cost = INSCRIBED then false
  else if cost = UNKNOWN ∧ ¬ traverse_unknown then false
  else true

/-- `Node2D::initNeighborhoods`, Von Neumann table (node_2d.hpp line 248). -/
def vonNeumannOffsets (x_size : ℤ) : List ℤ := [-1, 1, -x_size, x_size]

/-- `Node2D::initNeighborhoods`, Moore table (node_2d.hpp lines 251-252). -/
def mooreOffsets (x_size : ℤ) : List ℤ :=
  [-1, 1, -x_size, x_size, -x_size - 1, -x_size + 1, x_size - 1, x_size + 1]

/-- `Node2D::getNeighbors` (node_2d.hpp lines 265-292).  The static offset
table is passed explicitly; the `validity_checker` out-parameter idiom is
modelled by an `Option Node2D` result (`some` = checker returned `true` and
produced the pooled node).  `index` is the C++ `int` sum `node_i + offset`;
the checker receives it converted back to `unsigned int`, which for the
positive values that pass the `index > 0` test is `Int.toNat`. -/
def getNeighbors (offsets : List ℤ) (node : Node2D)
    (validity_checker : ℕ → Option Node2D) : List Node2D :=
  let node_i : ℤ := (node._index : ℤ)
  offsets.foldl
    (fun neighbors d =>
      let index := node_i + d
      match (if 0 < index then validity_checker index.toNat else none) with
      | some neighbor => neighbors ++ [neighbor]
      | none => neighbors)
    []

/-- Oracle for the `double` primitives the smoother uses: square root,
inverse cosine, cosine, and the IEEE-754 classification predicates.  Every
theorem below holds for an arbitrary oracle, so nothing depends on a
particular floating-point approximation. -/
structure RealOps where
  sqrt : ℚ → ℚ
  acos : ℚ → ℚ
  cos : ℚ → ℚ
  isnan : ℚ → Bool
  isinf : ℚ → Bool

/-- An `Eigen::Vector2d`. -/
abbrev Vec2 := ℚ × ℚ

/-- `Eigen::Vector2d::dot`. -/
def dot (a b : Vec2) : ℚ := a.1 * b.1 + a.2 * b.2

/-- Componentwise vector difference. -/
def vsub (a b : Vec2) : Vec2 := (a.1 - b.1, a.2 - b.2)

/-- `Eigen::Vector2d::norm()`: the square root of the squared norm. -/
def norm2 (R : RealOps) (v : Vec2) : ℚ := R.sqrt (dot v v)

/-- `#define EPSILON 0.0001` (smoother_cost_function.hpp line 32), as the
exact rational `1/10000`. -/
def EPSILON : ℚ := 1 / 10000

/-- The minimal costmap interface the smoother consumes (spec §6;
`minimal_costmap.hpp` is an external collaborator not under `src/`).
`getCost` is a total function on cell coordinates — it models the raw
memory read the C++ performs for *any* argument, in- or out-of-bounds. -/
structure MinimalCostmap where
  sizeX : ℕ
  sizeY : ℕ
  getCost : ℕ → ℕ → ℚ
  worldToMap : ℚ → ℚ → Option (ℕ × ℕ)

/-- C++ `unsigned int` addition (wraparound modulo `2^32`). -/
def add32 (a b : ℕ) : ℕ := (a + b) % 2 ^ 32

/-- C++ `unsigned int` subtraction (wraparound modulo `2^32`); faithful for
all `a < 2^32`, `b ≤ 2^32`. -/
def sub32 (a b : ℕ) : ℕ := (a + 2 ^ 32 - b) % 2 ^ 32

/-- `SmootherParams` (spec §6; `options.hpp` is not under `src/`): the four
term weights and the curvature threshold consumed by the constructor. -/
structure SmootherParams where
  smooth_weight : ℚ
  costmap_weight : ℚ
  curvature_weight : ℚ
  distance_weight : ℚ
  max_curvature : ℚ

/-- `CurvatureComputations` (smoother_cost_function.hpp lines 72-97): the
cache shared between the curvature residual and Jacobian passes.  The
constructor sets `valid = true`; the `double` members are value-initialized
to `0`. -/
structure CurvatureComputations where
  valid : Bool := true
  delta_xi : Vec2 := (0, 0)
  delta_xi_p : Vec2 := (0, 0)
  delta_xi_norm : ℚ := 0
  delta_xi_p_norm : ℚ := 0
  delta_phi_i : ℚ := 0
  turning_rad : ℚ := 0
  ki_minus_kmax : ℚ := 0

/-- `‖Δxi‖ = ‖pt − pt_m‖` as computed by `addCurvatureResidual`. -/
def curvDeltaXiNorm (R : RealOps) (pt pt_m : Vec2) : ℚ := norm2 R (vsub pt pt_m)

/-- `‖Δxi'‖ = ‖pt_p − pt‖` as computed by `addCurvatureResidual`. -/
def curvDeltaXiPNorm (R : RealOps) (pt pt_p : Vec2) : ℚ := norm2 R (vsub pt_p pt)

/-- The degenerate-segment guard of `addCurvatureResidual`
(smoother_cost_function.hpp lines 336-338): either norm below `EPSILON`,
NaN, or Inf. -/
def curvGuard (R : RealOps) (pt pt_p pt_m : Vec2) : Prop :=
  curvDeltaXiNorm R pt pt_m < EPSILON ∨ curvDeltaXiPNorm R pt pt_p < EPSILON ∨
  R.isnan (curvDeltaXiPNorm R pt pt_p) = true ∨
  R.isnan (curvDeltaXiNorm R pt pt_m) = true ∨
  R.isinf (curvDeltaXiPNorm R pt pt_p) = true ∨
  R.isinf (curvDeltaXiNorm R pt pt_m) = true

instance (R : RealOps) (pt pt_p pt_m : Vec2) : Decidable (curvGuard R pt pt_p pt_m) := by
  unfold curvGuard; infer_instance

/-- The clamped projection `p = (Δ · Δ') / (‖Δ‖·‖Δ'‖)` of
`addCurvatureResidual` (smoother_cost_function.hpp lines 344-348). -/
def curvProjection (R : RealOps) (pt pt_p pt_m : Vec2) : ℚ :=
  let p0 := dot (vsub pt pt_m) (vsub pt_p pt) /
    (curvDeltaXiNorm R pt pt_m * curvDeltaXiPNorm R pt pt_p)
  if |1 - p0| < EPSILON ∨ |p0 + 1| < EPSILON then 1 else p0

/-- The turning-angle-per-length proxy `κ_i = acos(p) / ‖Δ‖`
(smoother_cost_function.hpp lines 350-351). -/
def curvTurningRad (R : RealOps) (pt pt_p pt_m : Vec2) : ℚ :=
  R.acos (curvProjection R pt pt_p pt_m) / curvDeltaXiNorm R pt pt_m

/-- The curvature slack `k_i − k_max` (smoother_cost_function.hpp line 353). -/
def curvSlack (R : RealOps) (max_turning_radius : ℚ) (pt pt_p pt_m : Vec2) : ℚ :=
  curvTurningRad R pt pt_p pt_m - max_turning_radius

/-- `UnconstrainedSmootherCostFunction::addCurvatureResidual`
(smoother_cost_function.hpp lines 322-362).  Returns the updated cache and
the updated residual accumulator; on each early return the fields that the
source does not touch keep their stale previous-iteration values, exactly
as in the C++. -/
def addCurvatureResidual (R : RealOps) (max_turning_radius weight : ℚ)
    (pt pt_p pt_m : Vec2) (curvature_params : CurvatureComputations) (r : ℚ) :
    CurvatureComputations × ℚ :=
  let cp1 : CurvatureComputations :=
    { curvature_params with
      valid := true
      delta_xi := vsub pt pt_m
      delta_xi_p := vsub pt_p pt
      delta_xi_norm := curvDeltaXiNorm R pt pt_m
      delta_xi_p_norm := curvDeltaXiPNorm R pt pt_p }
  if curvGuard R pt pt_p pt_m then
    ({ cp1 with valid := false }, r)
  else
    let cp2 : CurvatureComputations :=
      { cp1 with
        delta_phi_i := R.acos (curvProjection R pt pt_p pt_m)
        turning_rad := curvTurningRad R pt pt_p pt_m
        ki_minus_kmax := curvSlack R max_turning_radius pt pt_p pt_m }
    if curvSlack R max_turning_radius pt pt_p pt_m ≤ EPSILON then
      ({ cp2 with valid := false }, r)
    else
      (cp2, r + weight * curvSlack R max_turning_radius pt pt_p pt_m *
        curvSlack R max_turning_radius pt pt_p pt_m)

/-- `UnconstrainedSmootherCostFunction::normalizedOrthogonalComplement`
(smoother_cost_function.hpp lines 492-499):
`(a − b·(a·b)/(b·b)) / (a_norm · b_norm)`. -/
def normalizedOrthogonalComplement (a b : Vec2) (a_norm b_norm : ℚ) : Vec2 :=
  ((a.1 - b.1 * dot a b / dot b b) / (a_norm * b_norm),
   (a.2 - b.2 * dot a b / dot b b) / (a_norm * b_norm))

/-- `UnconstrainedSmootherCostFunction::addCurvatureJacobian`
(smoother_cost_function.hpp lines 374-402).  `cpfx` is the source's
`common_prefix` and `ddphi` its
`partial_delta_phi_i_wrt_cost_delta_phi_i`. -/
def addCurvatureJacobian (R : RealOps) (weight : ℚ) (pt pt_p _pt_m : Vec2)
    (curvature_params : CurvatureComputations) (j0 j1 : ℚ) : ℚ × ℚ :=
  if curvature_params.valid = false then
    (j0, j1)
  else
    let ddphi := -1 / R.sqrt (1 - R.cos curvature_params.delta_phi_i ^ 2)
    let ones : Vec2 := (1, 1)
    let neg_pt_plus : Vec2 := (-1 * pt_p.1, -1 * pt_p.2)
    let p1 := normalizedOrthogonalComplement pt neg_pt_plus
      curvature_params.delta_xi_norm curvature_params.delta_xi_p_norm
    let p2 := normalizedOrthogonalComplement neg_pt_plus pt
      curvature_params.delta_xi_p_norm curvature_params.delta_xi_norm
    let u := 2 * curvature_params.ki_minus_kmax
    let cpfx := -1 / curvature_params.delta_xi_norm * ddphi
    let csfx := curvature_params.delta_phi_i /
      (curvature_params.delta_xi_norm * curvature_params.delta_xi_norm)
    let jacobian : Vec2 :=
      (u * (cpfx * (-p1.1 - p2.1) - csfx * ones.1),
       u * (cpfx * (-p1.2 - p2.2) - csfx * ones.2))
    let jacobian_im1 : Vec2 :=
      (u * (cpfx * p2.1 - csfx * ones.1), u * (cpfx * p2.2 - csfx * ones.2))
    let jacobian_ip1 : Vec2 := (u * (cpfx * p1.1), u * (cpfx * p1.2))
    (j0 + weight * (jacobian_im1.1 - 2 * jacobian.1 + jacobian_ip1.1),
     j1 + weight * (jacobian_im1.2 - 2 * jacobian.2 + jacobian_ip1.2))

/-- `UnconstrainedSmootherCostFunction::addSmoothingResidual`
(smoother_cost_function.hpp lines 412-426). -/
def addSmoothingResidual (weight : ℚ) (pt pt_p pt_m : Vec2) (r : ℚ) : ℚ :=
  r + weight * (dot pt_p pt_p - 4 * dot pt_p pt + 2 * dot pt_p pt_m
    + 4 * dot pt pt - 4 * dot pt pt_m + dot pt_m pt_m)

/-- `UnconstrainedSmootherCostFunction::addSmoothingJacobian`
(smoother_cost_function.hpp lines 437-447). -/
def addSmoothingJacobian (weight : ℚ) (pt pt_p pt_m : Vec2) (j0 j1 : ℚ) : ℚ × ℚ :=
  (j0 + weight * (-4 * pt_m.1 + 8 * pt.1 - 4 * pt_p.1),
   j1 + weight * (-4 * pt_m.2 + 8 * pt.2 - 4 * pt_p.2))

/-- `UnconstrainedSmootherCostFunction::addDistanceResidual`
(smoother_cost_function.hpp lines 456-463). -/
def addDistanceResidual (weight : ℚ) (xi xi_original : Vec2) (r : ℚ) : ℚ :=
  r + weight * dot (vsub xi xi_original) (vsub xi xi_original)

/-- `UnconstrainedSmootherCostFunction::addDistanceJacobian`
(smoother_cost_function.hpp lines 473-482). -/
def addDistanceJacobian (weight : ℚ) (xi xi_original : Vec2) (j0 j1 : ℚ) : ℚ × ℚ :=
  (j0 + weight * 2 * (xi.1 - xi_original.1),
   j1 + weight * 2 * (xi.2 - xi_original.2))

/-- `UnconstrainedSmootherCostFunction::addCostResidual`
(smoother_cost_function.hpp lines 182-196). -/
def addCostResidual (weight value : ℚ) (r : ℚ) : ℚ :=
  if value = (FREE : ℚ) ∨ value = (UNKNOWN : ℚ) then r
  else r + -1 * weight * (value - (MAX_NON_OBSTACLE : ℚ)) *
    (value - (MAX_NON_OBSTACLE : ℚ))

/-- `Eigen::Vector2d::normalize()`: divide by the norm (in the rational
model division by zero yields zero, so a zero vector stays zero). -/
def normalizeV (R : RealOps) (v : Vec2) : Vec2 :=
  (v.1 / norm2 R v, v.2 / norm2 R v)

/-- `UnconstrainedSmootherCostFunction::getCostmapGradient`
(smoother_cost_function.hpp lines 238-310), with the exact C++ `unsigned`
guard arithmetic. -/
def getCostmapGradient (R : RealOps) (cm : MinimalCostmap) (mx my : ℕ) : Vec2 :=
  let right_one := if mx < cm.sizeX then cm.getCost (add32 mx 1) my else 0
  let right_two := if add32 mx 1 < cm.sizeX then cm.getCost (add32 mx 2) my else 0
  let right_three := if add32 mx 2 < cm.sizeX then cm.getCost (add32 mx 3) my else 0
  let left_one := if 0 < mx then cm.getCost (sub32 mx 1) my else 0
  let left_two := if 0 < sub32 mx 1 then cm.getCost (sub32 mx 2) my else 0
  let left_three := if 0 < sub32 mx 2 then cm.getCost (sub32 mx 3) my else 0
  let up_one := if my < cm.sizeY then cm.getCost mx (add32 my 1) else 0
  let up_two := if add32 my 1 < cm.sizeY then cm.getCost mx (add32 my 2) else 0
  let up_three := if add32 my 2 < cm.sizeY then cm.getCost mx (add32 my 3) else 0
  let down_one := if 0 < my then cm.getCost mx (sub32 my 1) else 0
  let down_two := if 0 < sub32 my 1 then cm.getCost mx (sub32 my 2) else 0
  let down_three := if 0 < sub32 my 2 then cm.getCost mx (sub32 my 3) else 0
  normalizeV R
    ((45 * up_one - 9 * up_two + up_three
        - 45 * down_one + 9 * down_two - down_three) / 60,
     (45 * right_one - 9 * right_two + right_three
        - 45 * left_one + 9 * left_two - left_three) / 60)

/-- The list of `(x, y)` cell coordinates `getCostmapGradient` passes to
`getCost` for a `W × H` costmap at `(mx, my)`: a one-to-one transliteration
of the twelve guard/read pairs of smoother_cost_function.hpp lines
255-293, in program order. -/
def costmapGradientReads (W H mx my : ℕ) : List (ℕ × ℕ) :=
  (if mx < W then [(add32 mx 1, my)] else []) ++
  (if add32 mx 1 < W then [(add32 mx 2, my)] else []) ++
  (if add32 mx 2 < W then [(add32 mx 3, my)] else []) ++
  (if 0 < mx then [(sub32 mx 1, my)] else []) ++
  (if 0 < sub32 mx 1 then [(sub32 mx 2, my)] else []) ++
  (if 0 < sub32 mx 2 then [(sub32 mx 3, my)] else []) ++
  (if my < H then [(mx, add32 my 1)] else []) ++
  (if add32 my 1 < H then [(mx, add32 my 2)] else []) ++
  (if add32 my 2 < H then [(mx, add32 my 3)] else []) ++
  (if 0 < my then [(mx, sub32 my 1)] else []) ++
  (if 0 < sub32 my 1 then [(mx, sub32 my 2)] else []) ++
  (if 0 < sub32 my 2 then [(mx, sub32 my 3)] else [])

/-- `UnconstrainedSmootherCostFunction::addCostJacobian`
(smoother_cost_function.hpp lines 208-229).  `cpfx` is the source's
`common_prefix`. -/
def addCostJacobian (R : RealOps) (cm : MinimalCostmap) (weight : ℚ)
    (mx my : ℕ) (value : ℚ) (j0 j1 : ℚ) : ℚ × ℚ :=
  if value = (FREE : ℚ) ∨ value = (UNKNOWN : ℚ) then (j0, j1)
  else
    let grad := getCostmapGradient R cm mx my
    let cpfx := -2 * weight * (value - (MAX_NON_OBSTACLE : ℚ))
    (j0 + cpfx * grad.1, j1 + cpfx * grad.2)

/-- Pointwise array write: `g[k] = v`. -/
def setG (g : ℕ → ℚ) (k : ℕ) (v : ℚ) : ℕ → ℚ :=
  fun j => if j = k then v else g j

/-- The loop-carried state of `Evaluate` (smoother_cost_function.hpp lines
109-122): note that `cost_raw`, `grad_x_raw`, `grad_y_raw`, the curvature
cache, `valid_coords` and `costmap_cost` are all declared *outside* the
loop and therefore persist across iterations, exactly as in the source. -/
structure EvalState where
  cost_raw : ℚ
  grad_x_raw : ℚ
  grad_y_raw : ℚ
  gradient : ℕ → ℚ
  curvature_params : CurvatureComputations
  mx : ℕ
  my : ℕ
  valid_coords : Bool
  costmap_cost : ℚ

/-- One iteration of the `Evaluate` loop (smoother_cost_function.hpp lines
124-162) at point index `i`, for a path of `n` points.  `grad_nonnull`
models the `gradient != NULL` test of line 147; the unconditional writes of
lines 127-128 happen before it, as in the source. -/
def evaluateStep (R : RealOps) (P : SmootherParams) (original_path : List Vec2)
    (cm : MinimalCostmap) (parameters : ℕ → ℚ) (grad_nonnull : Bool) (n : ℕ)
    (s : EvalState) (i : ℕ) : EvalState :=
  let x_index := 2 * i
  let y_index := 2 * i + 1
  let s := { s with gradient := setG (setG s.gradient x_index 0) y_index 0 }
  if i < 1 ∨ n - 1 ≤ i then s
  else
    let xi : Vec2 := (parameters x_index, parameters y_index)
    let xi_p1 : Vec2 := (parameters (x_index + 2), parameters (y_index + 2))
    let xi_m1 : Vec2 := (parameters (x_index - 2), parameters (y_index - 2))
    let r1 := addSmoothingResidual P.smooth_weight xi xi_p1 xi_m1 s.cost_raw
    let cr := addCurvatureResidual R P.max_curvature P.curvature_weight
      xi xi_p1 xi_m1 s.curvature_params r1
    let r2 := cr.2
    let r3 := addDistanceResidual P.distance_weight xi
      (original_path.getD i ((0 : ℚ), (0 : ℚ))) r2
    let wm := cm.worldToMap xi.1 xi.2
    let valid_coords := wm.isSome
    let mx := (wm.getD (s.mx, s.my)).1
    let my := (wm.getD (s.mx, s.my)).2
    let costmap_cost := if valid_coords then cm.getCost mx my else s.costmap_cost
    let r4 := if valid_coords then addCostResidual P.costmap_weight costmap_cost r3 else r3
    let s1 : EvalState :=
      { cost_raw := r4
        grad_x_raw := s.grad_x_raw
        grad_y_raw := s.grad_y_raw
        gradient := s.gradient
        curvature_params := cr.1
        mx := mx
        my := my
        valid_coords := valid_coords
        costmap_cost := costmap_cost }
    if grad_nonnull then
      let g1 := setG (setG s1.gradient x_index 0) y_index 0
      let jp1 := addSmoothingJacobian P.smooth_weight xi xi_p1 xi_m1
        s1.grad_x_raw s1.grad_y_raw
      let jp2 := addCurvatureJacobian R P.curvature_weight xi xi_p1 xi_m1
        cr.1 jp1.1 jp1.2
      let jp3 := addDistanceJacobian P.distance_weight xi
        (original_path.getD i ((0 : ℚ), (0 : ℚ))) jp2.1 jp2.2
      let jp4 := if valid_coords then
          addCostJacobian R cm P.costmap_weight mx my costmap_cost jp3.1 jp3.2
        else jp3
      { s1 with
        gradient := setG (setG g1 x_index jp4.1) y_index jp4.2
        grad_x_raw := jp4.1
        grad_y_raw := jp4.2 }
    else s1

/-- `UnconstrainedSmootherCostFunction::Evaluate` (smoother_cost_function.hpp
lines 106-167).  Returns `(cost[0], gradient, returned bool)`; the source
returns `true` unconditionally on line 166. -/
def Evaluate (R : RealOps) (P : SmootherParams) (original_path : List Vec2)
    (cm : MinimalCostmap) (parameters : ℕ → ℚ) (gradient0 : ℕ → ℚ)
    (grad_nonnull : Bool) : ℚ × (ℕ → ℚ) × Bool :=
  let n := original_path.length
  let init : EvalState :=
    { cost_raw := 0
      grad_x_raw := 0
      grad_y_raw := 0
      gradient := gradient0
      curvature_params := {}
      mx := 0
      my := 0
      valid_coords := true
      costmap_cost := 0 }
  let final := (List.range n).foldl
    (evaluateStep R P original_path cm parameters grad_nonnull n) init
  (final.cost_raw, final.gradient, true)

/-- The four-term residual contribution of the single interior point `i`,
accumulated from zero through the same source functions `Evaluate` calls. -/
def residAt (R : RealOps) (P : SmootherParams) (original_path : List Vec2)
    (cm : MinimalCostmap) (parameters : ℕ → ℚ) (i : ℕ) : ℚ :=
  let xi : Vec2 := (parameters (2 * i), parameters (2 * i + 1))
  let xi_p1 : Vec2 := (parameters (2 * i + 2), parameters (2 * i + 1 + 2))
  let xi_m1 : Vec2 := (parameters (2 * i - 2), parameters (2 * i + 1 - 2))
  let r1 := addSmoothingResidual P.smooth_weight xi xi_p1 xi_m1 0
  let r2 := (addCurvatureResidual R P.max_curvature P.curvature_weight
    xi xi_p1 xi_m1 {} r1).2
  let r3 := addDistanceResidual P.distance_weight xi
    (original_path.getD i ((0 : ℚ), (0 : ℚ))) r2
  let wm := cm.worldToMap xi.1 xi.2
  if wm.isSome then
    addCostResidual P.costmap_weight
      (cm.getCost (wm.getD (0, 0)).1 (wm.getD (0, 0)).2) r3
  else r3

/-- The standalone smoothing contribution (the amount `addSmoothingResidual`
adds to its accumulator). -/
def smoothTerm (w : ℚ) (a b c : Vec2) : ℚ := addSmoothingResidual w a b c 0

/-- The standalone curvature contribution. -/
def curvTerm (R : RealOps) (kmax w : ℚ) (a b c : Vec2) : ℚ :=
  (addCurvatureResidual R kmax w a b c {} 0).2

/-- The standalone distance contribution. -/
def distTerm (w : ℚ) (a b : Vec2) : ℚ := addDistanceResidual w a b 0

/-- The standalone costmap contribution. -/
def costTerm (w v : ℚ) : ℚ := addCostResidual w v 0

/-- Concrete oracle used by the witnesses: identity square root, inverse
cosine and cosine, never-NaN, never-Inf. -/
def R0 : RealOps :=
  { sqrt := fun q => q
    acos := fun q => q
    cos := fun q => q
    isnan := fun _ => false
    isinf := fun _ => false }

/-- Concrete three-point straight path used by the witnesses. -/
def pathW : List Vec2 := [(0, 0), (1, 0), (2, 0)]

/-- Concrete two-point path used by the witnesses. -/
def path2W : List Vec2 := [(0, 0), (1, 0)]

/-- Concrete all-one weights used by the witnesses. -/
def PW : SmootherParams := ⟨1, 1, 1, 1, 1⟩

/-- Concrete costmap used by the witnesses: `5 × 5`, all cells free, world
coordinates never map onto the grid. -/
def cmW : MinimalCostmap :=
  { sizeX := 5
    sizeY := 5
    getCost := fun _ _ => 0
    worldToMap := fun _ _ => none }

/-- Concrete flattened parameter vector used by the witnesses. -/
def paramsW : ℕ → ℚ := fun k => ([0, 0, 1, 0, 2, 0] : List ℚ).getD k 0

/-- Concrete initial gradient array contents used by the witnesses. -/
def g0W : ℕ → ℚ := fun _ => 37

/-- Concrete node at flat index 5 used by the `getNeighbors` witness. -/
def nodeW : Node2D :=
  { parent := none
    _cell_cost := FloatV.finite 3
    _accumulated_cost := FloatV.finite 0
    _index := 5
    _was_visited := false
    _is_queued := false }

/-- Concrete pooled node at flat index 6 used by the `getNeighbors`
witness. -/
def nodeW6 : Node2D :=
  { parent := none
    _cell_cost := FloatV.finite 3
    _accumulated_cost := FloatV.finite 0
    _index := 6
    _was_visited := false
    _is_queued := false }

/-- Concrete validity checker used by the `getNeighbors` witness: only flat
index `6` has a valid pooled node. -/
def checkerW : ℕ → Option Node2D :=
  fun j => if j = 6 then some nodeW6 else none

end SmacPlanner

namespace SmacPlanner

/-- Helper for the claims below: the loop of `getNeighbors` with an explicit
accumulator equals the accumulator followed by a `filterMap` over the
offsets. -/
theorem getNeighbors_foldl_eq (node_i : ℤ) (validity_checker : ℕ → Option Node2D) :
    ∀ (offsets : List ℤ) (acc : List Node2D),
      offsets.foldl
        (fun neighbors d =>
          let index := node_i + d
          match (if 0 < index then validity_checker index.toNat else none) with
          | some neighbor => neighbors ++ [neighbor]
          | none => neighbors)
        acc
      = acc ++ offsets.filterMap
          (fun d => if 0 < node_i + d then validity_checker (node_i + d).toNat else none) := by
  intro offsets
  induction offsets with
  | nil => intro acc; simp
  | cons d rest ih =>
    intro acc
    simp only [List.foldl_cons, List.filterMap_cons]
    cases h : (if 0 < node_i + d then validity_checker (node_i + d).toNat else none) with
    | none => rw [ih acc]
    | some nb => rw [ih (acc ++ [nb])]; simp

/-- C1: `isNodeValid` returns `false` exactly on `OCCUPIED`, `INSCRIBED`,
and (when unknown traversal is disabled) `UNKNOWN`; every other 8-bit cost,
in particular the whole ordinary band `[FREE+1, MAX_NON_OBSTACLE]`, is
valid. -/
theorem claim_C1 : ∀ (c : Fin 256) (t : Bool),
    (isNodeValid c.1 t = true ↔
      (c.1 ≠ OCCUPIED ∧ c.1 ≠ INSCRIBED ∧ (c.1 = UNKNOWN → t = true)))
    ∧ (FREE + 1 ≤ c.1 → c.1 ≤ MAX_NON_OBSTACLE → isNodeValid c.1 t = true) := by
  decide

/-- Witness for C1 at concrete inputs: an ordinary traversal cost is valid
even with unknown traversal disabled. -/
theorem claim_C1_wit : isNodeValid 100 false = true :=
  (claim_C1 ⟨100, by decide⟩ false).2 (by decide) (by decide)

/-- C7: `getNeighbors` walks the offset table in stored order and emits the
pooled node for `j = index + d` exactly when `j > 0` and the validity
checker accepts `j`; consequently every emitted neighbor is justified by
some offset with a strictly positive target index (index 0 and negative
indices are never emitted). -/
theorem claim_C7 : ∀ (offsets : List ℤ) (node : Node2D)
    (validity_checker : ℕ → Option Node2D),
    getNeighbors offsets node validity_checker
      = offsets.filterMap
          (fun d => if 0 < (node._index : ℤ) + d then
              validity_checker ((node._index : ℤ) + d).toNat
            else none)
    ∧ ∀ nb, nb ∈ getNeighbors offsets node validity_checker →
        ∃ d, d ∈ offsets ∧ 0 < (node._index : ℤ) + d ∧
          validity_checker ((node._index : ℤ) + d).toNat = some nb := by
  intro offsets node validity_checker
  have heq := getNeighbors_foldl_eq (node._index : ℤ) validity_checker offsets []
  constructor
  · simpa [getNeighbors] using heq
  · intro nb hmem
    rw [show getNeighbors offsets node validity_checker
        = offsets.filterMap
            (fun d => if 0 < (node._index : ℤ) + d then
                validity_checker ((node._index : ℤ) + d).toNat
              else none)
      from by simpa [getNeighbors] using heq] at hmem
    rcases List.mem_filterMap.1 hmem with ⟨d, hd, hsome⟩
    by_cases hpos : 0 < (node._index : ℤ) + d
    · exact ⟨d, hd, hpos, by simpa [hpos] using hsome⟩
    · simp [hpos] at hsome

/-- Counterexample for C8 as stated: after `reset` the accumulated cost is
the finite float `std::numeric_limits<float>::max()`, not `+∞`, so the
claimed conjunction fails at a concrete node. -/
theorem claim_C8_cex :
    ¬ (((Node2D.init 7 3).reset 5 9).parent = none
        ∧ ((Node2D.init 7 3).reset 5 9)._accumulated_cost = FloatV.posInf
        ∧ ((Node2D.init 7 3).reset 5 9)._cell_cost = FloatV.finite 5
        ∧ ((Node2D.init 7 3).reset 5 9)._index = 9
        ∧ ((Node2D.init 7 3).reset 5 9)._was_visited = false
        ∧ ((Node2D.init 7 3).reset 5 9)._is_queued = false) := by
  intro h
  exact absurd h.2.1 (by decide)

theorem setG_self (g : ℕ → ℚ) (k : ℕ) (v : ℚ) : setG g k v k = v := by
  simp [setG]

theorem setG_ne (g : ℕ → ℚ) (k : ℕ) (v : ℚ) (j : ℕ) (h : j ≠ k) :
    setG g k v j = g j := by
  simp [setG, h]

theorem addSmoothingResidual_eq (w : ℚ) (a b c : Vec2) (r : ℚ) :
    addSmoothingResidual w a b c r = r + smoothTerm w a b c := by
  unfold smoothTerm addSmoothingResidual; ring

theorem addDistanceResidual_eq (w : ℚ) (a b : Vec2) (r : ℚ) :
    addDistanceResidual w a b r = r + distTerm w a b := by
  unfold distTerm addDistanceResidual; ring

theorem addCostResidual_eq (w v r : ℚ) :
    addCostResidual w v r = r + costTerm w v := by
  unfold costTerm addCostResidual; split_ifs <;> ring

/-- The residual component of `addCurvatureResidual` does not depend on the
incoming cache and only shifts the accumulator. -/
theorem addCurvatureResidual_snd_eq (R : RealOps) (kmax w : ℚ)
    (a b c : Vec2) (cp : CurvatureComputations) (r : ℚ) :
    (addCurvatureResidual R kmax w a b c cp r).2
      = r + curvTerm R kmax w a b c := by
  unfold curvTerm addCurvatureResidual
  split_ifs <;> simp

/-- The cache produced by `addCurvatureResidual` has a `valid` flag that
does not depend on the incoming cache. -/
theorem addCurvatureResidual_valid_const (R : RealOps) (kmax w : ℚ)
    (a b c : Vec2) (cp cp' : CurvatureComputations) (r r' : ℚ) :
    (addCurvatureResidual R kmax w a b c cp r).1.valid
      = (addCurvatureResidual R kmax w a b c cp' r').1.valid := by
  unfold addCurvatureResidual
  split_ifs <;> rfl

/-- An endpoint iteration (`i < 1` or `i ≥ n − 1`) only zeroes the two
gradient slots of point `i` and leaves the rest of the state untouched. -/
theorem evaluateStep_endpoint (R : RealOps) (P : SmootherParams)
    (path : List Vec2) (cm : MinimalCostmap) (parameters : ℕ → ℚ)
    (gn : Bool) (n : ℕ) (s : EvalState) (i : ℕ) (h : i < 1 ∨ n - 1 ≤ i) :
    evaluateStep R P path cm parameters gn n s i
      = { s with gradient := setG (setG s.gradient (2 * i) 0) (2 * i + 1) 0 } := by
  unfold evaluateStep
  split
  · rfl
  · rename_i hcon
    exact absurd h hcon

/-- Iteration `i` only writes gradient slots `2i` and `2i + 1`. -/
theorem evaluateStep_gradient_ne (R : RealOps) (P : SmootherParams)
    (path : List Vec2) (cm : MinimalCostmap) (parameters : ℕ → ℚ)
    (gn : Bool) (n : ℕ) (s : EvalState) (i : ℕ) (j : ℕ)
    (h0 : j ≠ 2 * i) (h1 : j ≠ 2 * i + 1) :
    (evaluateStep R P path cm parameters gn n s i).gradient j = s.gradient j := by
  unfold evaluateStep
  split
  · simp [setG, h0, h1]
  · dsimp only
    split
    · simp [setG, h0, h1]
    · simp [setG, h0, h1]

/-- With a null gradient pointer the guarded block of lines 147-161 is
skipped, but the unconditional writes of lines 127-128 still zero both
gradient slots of every point index. -/
theorem evaluateStep_gradient_null (R : RealOps) (P : SmootherParams)
    (path : List Vec2) (cm : MinimalCostmap) (parameters : ℕ → ℚ)
    (n : ℕ) (s : EvalState) (i : ℕ) :
    (evaluateStep R P path cm parameters false n s i).gradient
      = setG (setG s.gradient (2 * i) 0) (2 * i + 1) 0 := by
  unfold evaluateStep
  split
  · rfl
  · rfl

/-- An interior iteration advances the accumulated cost by exactly the
four-term contribution `residAt` of point `i`. -/
theorem evaluateStep_cost_interior (R : RealOps) (P : SmootherParams)
    (path : List Vec2) (cm : MinimalCostmap) (parameters : ℕ → ℚ)
    (gn : Bool) (n : ℕ) (s : EvalState) (i : ℕ) (h : ¬ (i < 1 ∨ n - 1 ≤ i)) :
    (evaluateStep R P path cm parameters gn n s i).cost_raw
      = s.cost_raw + residAt R P path cm parameters i := by
  unfold evaluateStep
  rw [if_neg h]
  dsimp only
  split <;>
  · unfold residAt
    dsimp only
    cases hwm : cm.worldToMap (parameters (2 * i)) (parameters (2 * i + 1)) with
    | none =>
      simp only [hwm, Option.isSome_none, Bool.false_eq_true, if_false,
        addSmoothingResidual_eq, addCurvatureResidual_snd_eq, addDistanceResidual_eq]
      ring
    | some mxy =>
      simp only [hwm, Option.isSome_some, if_true, Option.getD_some,
        addSmoothingResidual_eq, addCurvatureResidual_snd_eq, addDistanceResidual_eq,
        addCostResidual_eq]
      ring

/-- Gradient slots whose index is not written by any iteration in the list
keep their value across the fold. -/
theorem fold_gradient_frame (R : RealOps) (P : SmootherParams)
    (path : List Vec2) (cm : MinimalCostmap) (parameters : ℕ → ℚ)
    (gn : Bool) (n : ℕ) :
    ∀ (L : List ℕ) (s : EvalState) (k : ℕ),
      (∀ i ∈ L, k ≠ 2 * i ∧ k ≠ 2 * i + 1) →
      (L.foldl (evaluateStep R P path cm parameters gn n) s).gradient k
        = s.gradient k := by
  intro L
  induction L with
  | nil => intro s k _; rfl
  | cons a L ih =>
    intro s k hk
    simp only [List.foldl_cons]
    rw [ih _ k fun i hi => hk i (List.mem_cons_of_mem a hi)]
    exact evaluateStep_gradient_ne R P path cm parameters gn n s a k
      (hk a (List.mem_cons_self a L)).1 (hk a (List.mem_cons_self a L)).2

/-- The fold accumulates exactly the per-interior-index contributions. -/
theorem fold_cost (R : RealOps) (P : SmootherParams)
    (path : List Vec2) (cm : MinimalCostmap) (parameters : ℕ → ℚ)
    (gn : Bool) (n : ℕ) :
    ∀ (L : List ℕ) (s : EvalState),
      (L.foldl (evaluateStep R P path cm parameters gn n) s).cost_raw
        = s.cost_raw + (L.map fun i =>
            if i < 1 ∨ n - 1 ≤ i then 0 else residAt R P path cm parameters i).sum := by
  intro L
  induction L with
  | nil => intro s; simp
  | cons a L ih =>
    intro s
    simp only [List.foldl_cons, List.map_cons, List.sum_cons]
    rw [ih]
    by_cases ha : a < 1 ∨ n - 1 ≤ a
    · rw [evaluateStep_endpoint R P path cm parameters gn n s a ha, if_pos ha]
      ring
    · rw [evaluateStep_cost_interior R P path cm parameters gn n s a ha, if_neg ha]
      ring

/-- `((List.range n).map f).sum` as a `Finset.range` sum. -/
theorem list_sum_range_eq (f : ℕ → ℚ) :
    ∀ n, ((List.range n).map f).sum = ∑ i ∈ Finset.range n, f i := by
  intro n
  induction n with
  | zero => simp
  | succ m ih =>
    rw [List.range_succ, List.map_append, List.sum_append,
      Finset.sum_range_succ, ih]
    simp

/-- C2: for a path of `n ≥ 2` points, `Evaluate` zeroes the gradient slots
of both endpoints (`0`, `1`, `2n−2`, `2n−1`) and the returned cost is the
sum of the contributions of the interior indices `1 .. n−2` only. -/
theorem claim_C2 : ∀ (R : RealOps) (P : SmootherParams) (path : List Vec2)
    (cm : MinimalCostmap) (parameters gradient0 : ℕ → ℚ),
    2 ≤ path.length →
    (Evaluate R P path cm parameters gradient0 true).2.1 0 = 0
    ∧ (Evaluate R P path cm parameters gradient0 true).2.1 1 = 0
    ∧ (Evaluate R P path cm parameters gradient0 true).2.1 (2 * path.length - 2) = 0
    ∧ (Evaluate R P path cm parameters gradient0 true).2.1 (2 * path.length - 1) = 0
    ∧ (Evaluate R P path cm parameters gradient0 true).1
        = ∑ i ∈ Finset.Ico 1 (path.length - 1), residAt R P path cm parameters i := by
  intro R P path cm parameters gradient0 hlen
  obtain ⟨m, hm⟩ : ∃ m, path.length = m + 2 := ⟨path.length - 2, by omega⟩
  unfold Evaluate
  dsimp only
  rw [hm]
  have hlow : ∀ k : ℕ, k < 2 →
      ((List.range (m + 2)).foldl
        (evaluateStep R P path cm parameters true (m + 2))
        { cost_raw := 0, grad_x_raw := 0, grad_y_raw := 0, gradient := gradient0,
          curvature_params := {}, mx := 0, my := 0, valid_coords := true,
          costmap_cost := 0 }).gradient k = 0 := by
    intro k hk
    rw [List.range_succ_eq_map, List.foldl_cons]
    rw [fold_gradient_frame R P path cm parameters true (m + 2) _ _ k
      (by
        intro i hi
        rcases List.mem_map.1 hi with ⟨j, _, rfl⟩
        omega)]
    rw [evaluateStep_endpoint R P path cm parameters true (m + 2) _ 0 (by omega)]
    interval_cases k
    · simp [setG]
    · simp [setG]
  have hhigh : ∀ k : ℕ, k = 2 * (m + 1) ∨ k = 2 * (m + 1) + 1 →
      ((List.range (m + 2)).foldl
        (evaluateStep R P path cm parameters true (m + 2))
        { cost_raw := 0, grad_x_raw := 0, grad_y_raw := 0, gradient := gradient0,
          curvature_params := {}, mx := 0, my := 0, valid_coords := true,
          costmap_cost := 0 }).gradient k = 0 := by
    intro k hk
    rw [show m + 2 = (m + 1) + 1 from rfl, List.range_succ, List.foldl_append,
      List.foldl_cons, List.foldl_nil]
    rw [evaluateStep_endpoint R P path cm parameters true ((m + 1) + 1) _ (m + 1)
      (by omega)]
    rcases hk with rfl | rfl
    · simp only []
      rw [setG_ne _ _ _ _ (by omega), setG_self]
    · simp only []
      rw [setG_self]
  refine ⟨?_, ?_, ?_, ?_, ?_⟩
  · exact hlow 0 (by omega)
  · exact hlow 1 (by omega)
  · have h2 : 2 * (m + 2) - 2 = 2 * (m + 1) := by omega
    rw [h2]
    exact hhigh _ (Or.inl rfl)
  · have h2 : 2 * (m + 2) - 1 = 2 * (m + 1) + 1 := by omega
    rw [h2]
    exact hhigh _ (Or.inr rfl)
  · rw [fold_cost, list_sum_range_eq]
    have hstep : ∀ i : ℕ,
        (if i < 1 ∨ (m + 2) - 1 ≤ i then (0 : ℚ)
          else residAt R P path cm parameters i)
        = if i ∈ Finset.Ico 1 (m + 1) then residAt R P path cm parameters i
          else 0 := by
      intro i
      by_cases hi : i < 1 ∨ (m + 2) - 1 ≤ i
      · rw [if_pos hi, if_neg (by simp only [Finset.mem_Ico]; omega)]
      · rw [if_neg hi, if_pos (by simp only [Finset.mem_Ico]; omega)]
    calc (0 : ℚ) + ∑ i ∈ Finset.range (m + 2),
            (if i < 1 ∨ (m + 2) - 1 ≤ i then (0 : ℚ)
              else residAt R P path cm parameters i)
        = ∑ i ∈ Finset.range (m + 2),
            (if i ∈ Finset.Ico 1 (m + 1) then residAt R P path cm parameters i
              else 0) := by
          rw [zero_add]
          exact Finset.sum_congr rfl fun i _ => hstep i
      _ = ∑ i ∈ Finset.Ico 1 (m + 1), residAt R P path cm parameters i := by
          rw [Finset.sum_ite_mem]
          congr 1
          rw [Finset.inter_eq_right]
          intro i hi
          simp only [Finset.mem_Ico] at hi
          simp only [Finset.mem_range]
          omega
      _ = ∑ i ∈ Finset.Ico 1 ((m + 2) - 1), residAt R P path cm parameters i := by
          norm_num

theorem smoothTerm_zero (a b c : Vec2) : smoothTerm 0 a b c = 0 := by
  unfold smoothTerm addSmoothingResidual; ring

theorem curvTerm_zero (R : RealOps) (kmax : ℚ) (a b c : Vec2) :
    curvTerm R kmax 0 a b c = 0 := by
  unfold curvTerm addCurvatureResidual
  split_ifs <;> simp

theorem distTerm_zero (a b : Vec2) : distTerm 0 a b = 0 := by
  unfold distTerm addDistanceResidual; ring

theorem costTerm_zero (v : ℚ) : costTerm 0 v = 0 := by
  unfold costTerm addCostResidual
  split_ifs
  · rfl
  · ring

theorem addSmoothingJacobian_zeroW (a b c : Vec2) (j0 j1 : ℚ) :
    addSmoothingJacobian 0 a b c j0 j1 = (j0, j1) := by
  unfold addSmoothingJacobian
  simp

theorem addCurvatureJacobian_zeroW (R : RealOps) (a b c : Vec2)
    (cp : CurvatureComputations) (j0 j1 : ℚ) :
    addCurvatureJacobian R 0 a b c cp j0 j1 = (j0, j1) := by
  unfold addCurvatureJacobian
  split_ifs
  · rfl
  · simp

theorem addDistanceJacobian_zeroW (a b : Vec2) (j0 j1 : ℚ) :
    addDistanceJacobian 0 a b j0 j1 = (j0, j1) := by
  unfold addDistanceJacobian
  simp

theorem addCostJacobian_zeroW (R : RealOps) (cm : MinimalCostmap)
    (mx my : ℕ) (v : ℚ) (j0 j1 : ℚ) :
    addCostJacobian R cm 0 mx my v j0 j1 = (j0, j1) := by
  unfold addCostJacobian
  split_ifs
  · rfl
  · dsimp only
    congr 1 <;> ring

/-- With all four weights zero, an iteration leaves the cost and raw
gradient accumulators unchanged and writes zeros into the two gradient
slots of point `i` (provided the raw accumulators are still zero). -/
theorem evaluateStep_zeroW (R : RealOps) (kmax : ℚ) (path : List Vec2)
    (cm : MinimalCostmap) (parameters : ℕ → ℚ) (n : ℕ) (s : EvalState) (i : ℕ)
    (hx : s.grad_x_raw = 0) (hy : s.grad_y_raw = 0) :
    (evaluateStep R ⟨0, 0, 0, 0, kmax⟩ path cm parameters true n s i).cost_raw
        = s.cost_raw
    ∧ (evaluateStep R ⟨0, 0, 0, 0, kmax⟩ path cm parameters true n s i).grad_x_raw = 0
    ∧ (evaluateStep R ⟨0, 0, 0, 0, kmax⟩ path cm parameters true n s i).grad_y_raw = 0
    ∧ ∀ k, (evaluateStep R ⟨0, 0, 0, 0, kmax⟩ path cm parameters true n s i).gradient k
        = setG (setG s.gradient (2 * i) 0) (2 * i + 1) 0 k := by
  unfold evaluateStep
  split
  · exact ⟨rfl, hx, hy, fun k => rfl⟩
  · dsimp only
    simp only [addSmoothingResidual_eq, addCurvatureResidual_snd_eq,
      addDistanceResidual_eq, addCostResidual_eq, smoothTerm_zero, curvTerm_zero,
      distTerm_zero, costTerm_zero, add_zero, hx, hy,
      addSmoothingJacobian_zeroW, addCurvatureJacobian_zeroW,
      addDistanceJacobian_zeroW, addCostJacobian_zeroW, ite_self, if_true]
    refine ⟨trivial, trivial, trivial, ?_⟩
    intro k
    simp only [setG]
    split_ifs <;> rfl

/-- With all four weights zero, after `m` iterations the cost and raw
accumulators are zero and the first `2m` gradient slots are zero. -/
theorem fold_zeroW (R : RealOps) (kmax : ℚ) (path : List Vec2)
    (cm : MinimalCostmap) (parameters gradient0 : ℕ → ℚ) (n : ℕ) :
    ∀ m : ℕ,
      (((List.range m).foldl
        (evaluateStep R ⟨0, 0, 0, 0, kmax⟩ path cm parameters true n)
        { cost_raw := 0, grad_x_raw := 0, grad_y_raw := 0, gradient := gradient0,
          curvature_params := {}, mx := 0, my := 0, valid_coords := true,
          costmap_cost := 0 }).cost_raw = 0
      ∧ ((List.range m).foldl
          (evaluateStep R ⟨0, 0, 0, 0, kmax⟩ path cm parameters true n)
          { cost_raw := 0, grad_x_raw := 0, grad_y_raw := 0, gradient := gradient0,
            curvature_params := {}, mx := 0, my := 0, valid_coords := true,
            costmap_cost := 0 }).grad_x_raw = 0
      ∧ ((List.range m).foldl
          (evaluateStep R ⟨0, 0, 0, 0, kmax⟩ path cm parameters true n)
          { cost_raw := 0, grad_x_raw := 0, grad_y_raw := 0, gradient := gradient0,
            curvature_params := {}, mx := 0, my := 0, valid_coords := true,
            costmap_cost := 0 }).grad_y_raw = 0
      ∧ ∀ k, ((List.range m).foldl
          (evaluateStep R ⟨0, 0, 0, 0, kmax⟩ path cm parameters true n)
          { cost_raw := 0, grad_x_raw := 0, grad_y_raw := 0, gradient := gradient0,
            curvature_params := {}, mx := 0, my := 0, valid_coords := true,
            costmap_cost := 0 }).gradient k
          = if k < 2 * m then 0 else gradient0 k) := by
  intro m
  induction m with
  | zero => exact ⟨rfl, rfl, rfl, fun k => by simp⟩
  | succ m ih =>
    obtain ⟨ihc, ihx, ihy, ihg⟩ := ih
    rw [List.range_succ, List.foldl_append, List.foldl_cons, List.foldl_nil]
    obtain ⟨hc, hx, hy, hg⟩ :=
      evaluateStep_zeroW R kmax path cm parameters n _ m ihx ihy
    refine ⟨by rw [hc, ihc], hx, hy, ?_⟩
    intro k
    rw [hg k]
    by_cases h1 : k = 2 * m + 1
    · subst h1
      rw [setG_self, if_pos (by omega)]
    · rw [setG_ne _ _ _ _ h1]
      by_cases h0 : k = 2 * m
      · subst h0
        rw [setG_self, if_pos (by omega)]
      · rw [setG_ne _ _ _ _ h0, ihg k]
        by_cases hlt : k < 2 * m
        · rw [if_pos hlt, if_pos (by omega)]
        · rw [if_neg hlt, if_neg (by omega)]

/-- C5: with all four weights zero, `Evaluate` returns cost `0` and a
gradient that is zero at every index of the `2n`-slot gradient array. -/
theorem claim_C5 : ∀ (R : RealOps) (kmax : ℚ) (path : List Vec2)
    (cm : MinimalCostmap) (parameters gradient0 : ℕ → ℚ),
    (Evaluate R ⟨0, 0, 0, 0, kmax⟩ path cm parameters gradient0 true).1 = 0
    ∧ ∀ k, k < 2 * path.length →
        (Evaluate R ⟨0, 0, 0, 0, kmax⟩ path cm parameters gradient0 true).2.1 k = 0 := by
  intro R kmax path cm parameters gradient0
  obtain ⟨hc, _, _, hg⟩ :=
    fold_zeroW R kmax path cm parameters gradient0 path.length path.length
  exact ⟨hc, fun k hk => by rw [show (Evaluate R ⟨0, 0, 0, 0, kmax⟩ path cm
    parameters gradient0 true).2.1 = ((List.range path.length).foldl
      (evaluateStep R ⟨0, 0, 0, 0, kmax⟩ path cm parameters true path.length)
      { cost_raw := 0, grad_x_raw := 0, grad_y_raw := 0, gradient := gradient0,
        curvature_params := {}, mx := 0, my := 0, valid_coords := true,
        costmap_cost := 0 }).gradient from rfl, hg k, if_pos hk]⟩

/-- With a null gradient pointer, after `m` iterations the first `2m`
gradient slots have nevertheless been written (to zero). -/
theorem fold_null (R : RealOps) (P : SmootherParams) (path : List Vec2)
    (cm : MinimalCostmap) (parameters gradient0 : ℕ → ℚ) (n : ℕ)
    (s0 : EvalState) (hs0 : s0.gradient = gradient0) :
    ∀ m : ℕ, ∀ k,
      (((List.range m).foldl
        (evaluateStep R P path cm parameters false n) s0).gradient k)
        = if k < 2 * m then 0 else gradient0 k := by
  intro m
  induction m with
  | zero => intro k; simp [List.range_zero, List.foldl_nil, hs0]
  | succ m ih =>
    intro k
    rw [List.range_succ, List.foldl_append, List.foldl_cons, List.foldl_nil,
      evaluateStep_gradient_null]
    by_cases h1 : k = 2 * m + 1
    · subst h1
      rw [setG_self, if_pos (by omega)]
    · rw [setG_ne _ _ _ _ h1]
      by_cases h0 : k = 2 * m
      · subst h0
        rw [setG_self, if_pos (by omega)]
      · rw [setG_ne _ _ _ _ h0, ih k]
        by_cases hlt : k < 2 * m
        · rw [if_pos hlt, if_pos (by omega)]
        · rw [if_neg hlt, if_neg (by omega)]

/-- C10: even when the gradient pointer is null (`grad_nonnull = false`,
so the guarded block of lines 147-161 never runs), every slot `2i` and
`2i + 1`, `i < n`, of the gradient array has been written by the
unconditional stores of lines 127-128 — the `gradient != NULL` test never
prevents a gradient write, so `Evaluate` requires a valid array of length
at least `2n`. -/
theorem claim_C10 : ∀ (R : RealOps) (P : SmootherParams) (path : List Vec2)
    (cm : MinimalCostmap) (parameters gradient0 : ℕ → ℚ) (k : ℕ),
    k < 2 * path.length →
    (Evaluate R P path cm parameters gradient0 false).2.1 k = 0 := by
  intro R P path cm parameters gradient0 k hk
  rw [show (Evaluate R P path cm parameters gradient0 false).2.1
      = ((List.range path.length).foldl
        (evaluateStep R P path cm parameters false path.length)
        { cost_raw := 0, grad_x_raw := 0, grad_y_raw := 0, gradient := gradient0,
          curvature_params := {}, mx := 0, my := 0, valid_coords := true,
          costmap_cost := 0 }).gradient from rfl,
    fold_null R P path cm parameters gradient0 path.length _ rfl path.length k,
    if_pos hk]

/-- C3: the expanded dot-product form of `addSmoothingResidual` equals the
second-difference form `W_smooth · ‖x_{i+1} − 2·x_i + x_{i-1}‖²`, and
`addSmoothingJacobian` adds `W_smooth · (−4·x_{i-1} + 8·x_i − 4·x_{i+1})`
componentwise. -/
theorem claim_C3 : ∀ (W_smooth : ℚ) (xi xi_p1 xi_m1 : Vec2) (r j0 j1 : ℚ),
    addSmoothingResidual W_smooth xi xi_p1 xi_m1 r
      = r + W_smooth *
          dot (xi_p1.1 - 2 * xi.1 + xi_m1.1, xi_p1.2 - 2 * xi.2 + xi_m1.2)
              (xi_p1.1 - 2 * xi.1 + xi_m1.1, xi_p1.2 - 2 * xi.2 + xi_m1.2)
    ∧ addSmoothingJacobian W_smooth xi xi_p1 xi_m1 j0 j1
      = (j0 + W_smooth * (-4 * xi_m1.1 + 8 * xi.1 - 4 * xi_p1.1),
         j1 + W_smooth * (-4 * xi_m1.2 + 8 * xi.2 - 4 * xi_p1.2)) := by
  intro W_smooth xi xi_p1 xi_m1 r j0 j1
  constructor
  · unfold addSmoothingResidual dot; ring
  · rfl

/-- C4: if either segment norm is degenerate (below `EPSILON`, NaN or Inf)
or the curvature slack is at most `EPSILON`, the curvature term adds
nothing to the residual, the cache is marked invalid and the Jacobian pass
adds nothing to the gradient; otherwise the residual gains exactly
`W_curve · (k_i − k_max)²`. -/
theorem claim_C4 : ∀ (R : RealOps) (kmax W_curve : ℚ) (pt pt_p pt_m : Vec2)
    (cp : CurvatureComputations) (r j0 j1 : ℚ),
    ((curvGuard R pt pt_p pt_m ∨ curvSlack R kmax pt pt_p pt_m ≤ EPSILON) →
      (addCurvatureResidual R kmax W_curve pt pt_p pt_m cp r).2 = r
      ∧ (addCurvatureResidual R kmax W_curve pt pt_p pt_m cp r).1.valid = false
      ∧ addCurvatureJacobian R W_curve pt pt_p pt_m
          (addCurvatureResidual R kmax W_curve pt pt_p pt_m cp r).1 j0 j1 = (j0, j1))
    ∧ (¬ curvGuard R pt pt_p pt_m → ¬ curvSlack R kmax pt pt_p pt_m ≤ EPSILON →
        (addCurvatureResidual R kmax W_curve pt pt_p pt_m cp r).2
          = r + W_curve * curvSlack R kmax pt pt_p pt_m * curvSlack R kmax pt pt_p pt_m
        ∧ (addCurvatureResidual R kmax W_curve pt pt_p pt_m cp r).1.valid = true) := by
  intro R kmax W_curve pt pt_p pt_m cp r j0 j1
  constructor
  · intro h
    unfold addCurvatureResidual
    rcases h with hg | hs
    · rw [if_pos hg]
      refine ⟨rfl, rfl, ?_⟩
      unfold addCurvatureJacobian
      rw [if_pos rfl]
    · by_cases hg : curvGuard R pt pt_p pt_m
      · rw [if_pos hg]
        refine ⟨rfl, rfl, ?_⟩
        unfold addCurvatureJacobian
        rw [if_pos rfl]
      · rw [if_neg hg, if_pos hs]
        refine ⟨rfl, rfl, ?_⟩
        unfold addCurvatureJacobian
        rw [if_pos rfl]
  · intro hg hs
    unfold addCurvatureResidual
    rw [if_neg hg, if_neg hs]
    exact ⟨rfl, rfl⟩

/-- C6 (code evaluated at the failing inputs): on a `5 × 5` costmap,
`getCostmapGradient` at `(mx, my) = (0, 2)` reads cell
`(2^32 − 2, 2)` — the guard `mx - 1 > 0` wraps around on `unsigned` — and
at `(4, 2)` it reads cell `(5, 2)` — the guard `mx < sizeX()` is off by
one; both reads lie outside `[0, 5) × [0, 5)`. -/
theorem claim_C6 :
    ((4294967294, 2) ∈ costmapGradientReads 5 5 0 2 ∧ ¬ (4294967294 < 5))
    ∧ ((5, 2) ∈ costmapGradientReads 5 5 4 2 ∧ ¬ (5 < 5)) := by
  constructor
  · constructor
    · show (4294967294, 2) ∈ costmapGradientReads 5 5 0 2
      unfold costmapGradientReads add32 sub32
      norm_num
    · decide
  · constructor
    · show (5, 2) ∈ costmapGradientReads 5 5 4 2
      unfold costmapGradientReads add32 sub32
      norm_num
    · decide

/-- Counterexample for C9 as stated: there is no input at all on which
`Evaluate` reports failure — the function returns `true` unconditionally,
so no divergence is ever surfaced by it. -/
theorem claim_C9_cex :
    ¬ ∃ (R : RealOps) (P : SmootherParams) (original_path : List Vec2)
        (cm : MinimalCostmap) (parameters gradient0 : ℕ → ℚ) (gn : Bool),
        (Evaluate R P original_path cm parameters gradient0 gn).2.2 = false := by
  rintro ⟨R, P, path, cm, parameters, gradient0, gn, h⟩
  exact absurd h (by simp [Evaluate])

/-- C9 (amended): `Evaluate` returns `true` (success) on every input,
whether or not the computed cost or gradient would be finite; it never
surfaces a `SmootherDiverged` failure. -/
theorem claim_C9 : ∀ (R : RealOps) (P : SmootherParams) (original_path : List Vec2)
    (cm : MinimalCostmap) (parameters gradient0 : ℕ → ℚ) (gn : Bool),
    (Evaluate R P original_path cm parameters gradient0 gn).2.2 = true := by
  intro R P path cm parameters gradient0 gn
  rfl

/-- C8 (amended): after `reset(cost, index)` the parent is null, the
accumulated cost is the largest *finite* float value
`std::numeric_limits<float>::max()` (not `+∞`), the cell cost is the passed
costmap value, the index is the passed index and both flags are cleared;
`reset` leaves the node exactly as freshly constructed. -/
theorem claim_C8 : ∀ (n : Node2D) (cost index : ℕ),
    (n.reset cost index).parent = none
    ∧ (n.reset cost index)._accumulated_cost = FloatV.finite floatMax
    ∧ FloatV.finite floatMax ≠ FloatV.posInf
    ∧ (n.reset cost index)._cell_cost = FloatV.finite cost
    ∧ (n.reset cost index)._index = index
    ∧ (n.reset cost index)._was_visited = false
    ∧ (n.reset cost index)._is_queued = false
    ∧ n.reset cost index = Node2D.init cost index := by
  intro n cost index
  refine ⟨rfl, rfl, by decide, rfl, rfl, rfl, rfl, rfl⟩

/-- Witness for C2 at a concrete three-point input. -/
theorem claim_C2_wit :
    2 ≤ pathW.length
    ∧ ((Evaluate R0 PW pathW cmW paramsW g0W true).2.1 0 = 0
      ∧ (Evaluate R0 PW pathW cmW paramsW g0W true).2.1 1 = 0
      ∧ (Evaluate R0 PW pathW cmW paramsW g0W true).2.1 (2 * pathW.length - 2) = 0
      ∧ (Evaluate R0 PW pathW cmW paramsW g0W true).2.1 (2 * pathW.length - 1) = 0
      ∧ (Evaluate R0 PW pathW cmW paramsW g0W true).1
          = ∑ i ∈ Finset.Ico 1 (pathW.length - 1), residAt R0 PW pathW cmW paramsW i) :=
  ⟨by decide, claim_C2 R0 PW pathW cmW paramsW g0W (by decide)⟩

/-- Witness for C4 at a concrete degenerate triple (all three points
coincide, so the first guard fires). -/
theorem claim_C4_wit :
    (curvGuard R0 ((0 : ℚ), (0 : ℚ)) ((0 : ℚ), (0 : ℚ)) ((0 : ℚ), (0 : ℚ))
      ∨ curvSlack R0 0 ((0 : ℚ), (0 : ℚ)) ((0 : ℚ), (0 : ℚ)) ((0 : ℚ), (0 : ℚ)) ≤ EPSILON)
    ∧ ((addCurvatureResidual R0 0 1 ((0 : ℚ), (0 : ℚ)) ((0 : ℚ), (0 : ℚ))
          ((0 : ℚ), (0 : ℚ)) {} 7).2 = 7
      ∧ (addCurvatureResidual R0 0 1 ((0 : ℚ), (0 : ℚ)) ((0 : ℚ), (0 : ℚ))
          ((0 : ℚ), (0 : ℚ)) {} 7).1.valid = false
      ∧ addCurvatureJacobian R0 1 ((0 : ℚ), (0 : ℚ)) ((0 : ℚ), (0 : ℚ))
          ((0 : ℚ), (0 : ℚ))
          (addCurvatureResidual R0 0 1 ((0 : ℚ), (0 : ℚ)) ((0 : ℚ), (0 : ℚ))
            ((0 : ℚ), (0 : ℚ)) {} 7).1 2 3 = (2, 3)) := by
  have hg : curvGuard R0 ((0 : ℚ), (0 : ℚ)) ((0 : ℚ), (0 : ℚ)) ((0 : ℚ), (0 : ℚ)) := by
    unfold curvGuard curvDeltaXiNorm norm2 dot vsub R0 EPSILON
    norm_num
  exact ⟨Or.inl hg,
    (claim_C4 R0 0 1 ((0 : ℚ), (0 : ℚ)) ((0 : ℚ), (0 : ℚ)) ((0 : ℚ), (0 : ℚ))
      {} 7 2 3).1 (Or.inl hg)⟩

/-- Witness for C5 at a concrete input: the cost is zero and a sampled
gradient slot is zero. -/
theorem claim_C5_wit :
    (Evaluate R0 ⟨0, 0, 0, 0, 5⟩ pathW cmW paramsW g0W true).1 = 0
    ∧ (Evaluate R0 ⟨0, 0, 0, 0, 5⟩ pathW cmW paramsW g0W true).2.1 2 = 0 :=
  ⟨(claim_C5 R0 5 pathW cmW paramsW g0W).1,
   (claim_C5 R0 5 pathW cmW paramsW g0W).2 2 (by decide)⟩

/-- Witness for C7 at a concrete input: from index 5 with offsets
`[-1, +1]`, only the pooled node at index 6 is emitted. -/
theorem claim_C7_wit :
    getNeighbors [-1, 1] nodeW checkerW = [nodeW6] := by
  rw [(claim_C7 [-1, 1] nodeW checkerW).1]
  decide

/-- Witness for C10 at a concrete input: with a null gradient pointer the
slot `3 < 2 · 2` of the array is nevertheless written (to zero). -/
theorem claim_C10_wit :
    3 < 2 * path2W.length
    ∧ (Evaluate R0 PW path2W cmW paramsW g0W false).2.1 3 = 0 :=
  ⟨by decide, claim_C10 R0 PW path2W cmW paramsW g0W 3 (by decide)⟩

end SmacPlanner
